import Mathlib

/-
Shallow embedding of the persistence-layer logic of the tamamlayici-saglik-cms
repository: the Media, User, Page and Settings schema hooks and methods.

Modelling conventions:
- JS strings whose character content matters (Media tags) are modelled as
  sequences of UTF-16 code units (List Nat); other strings (status values,
  titles, error messages) are Lean strings.
- Timestamps (the JS Date values produced at save time) are Nat milliseconds.
- Fallible save hooks return Except String.
- The mongoose isModified flag of a document path is passed explicitly as a
  Boolean parameter to the save pipeline.
- JS truthiness: an empty string is falsy; a missing (null/undefined) value is
  none and falsy; a number is falsy exactly when it is 0.
-/

namespace CMS

/-- JS strings, as sequences of UTF-16 code units. -/
abbrev JsStr := List Nat

/-- Code units stripped by the JS trim method (whitespace and line terminators). -/
def isJsWhitespace (u : Nat) : Bool :=
  u == 9 || u == 10 || u == 11 || u == 12 || u == 13 || u == 32 ||
  u == 160 || u == 8232 || u == 8233 || u == 65279

/-- The JS toLowerCase method, ASCII case mapping on code units. -/
def jsToLowerCase (s : JsStr) : JsStr :=
  s.map (fun u => if 65 ≤ u && u ≤ 90 then u + 32 else u)

/-- The JS trim method: strip leading and trailing whitespace. -/
def jsTrim (s : JsStr) : JsStr :=
  ((s.dropWhile isJsWhitespace).reverse.dropWhile isJsWhitespace).reverse

/-- Normalisation applied to each Media tag in the Media pre-save hook:
tag.toLowerCase().trim() . -/
def normalizeTag (t : JsStr) : JsStr := jsTrim (jsToLowerCase t)

/-- Insertion pass of a JS Set built from a list: the accumulator holds the
elements already inserted; an element already present is skipped, a new one
is kept.  JS Set iteration order is insertion order. -/
def jsSetDedupAux {α : Type} [DecidableEq α] (seen : List α) : List α → List α
  | [] => []
  | t :: ts => if t ∈ seen then jsSetDedupAux seen ts else t :: jsSetDedupAux (t :: seen) ts

/-- Spreading a JS Set built from a list: deduplicate, keeping the first
occurrence of each element, in order of first occurrence. -/
def jsSetDedup {α : Type} [DecidableEq α] (l : List α) : List α := jsSetDedupAux [] l

/-- Index of the first occurrence of an element in a list (length of the
list when absent); used to state order-of-first-occurrence properties. -/
def idxOf {α : Type} [DecidableEq α] (x : α) : List α → Nat
  | [] => 0
  | a :: l => if a = x then 0 else idxOf x l + 1

/-! ### Media model (src/models/Media.js) -/

/-- Analytics counters of a Media record. -/
structure MediaAnalytics where
  views : Nat
  downloads : Nat
  shares : Nat
deriving DecidableEq, Repr

/-- Image dimensions of a Media record; none models a missing field. -/
structure ImageMetadata where
  width : Option Int
  height : Option Int
deriving DecidableEq, Repr

/-- The fields of a Media document that its hooks and methods touch. -/
structure MediaDoc where
  mediaType : String
  tags : List JsStr
  imageMetadata : Option ImageMetadata
  analytics : MediaAnalytics
deriving DecidableEq, Repr

/-- First phase of the Media pre-save hook: when the tags array is nonempty,
replace it by the spread of a Set of the lowercased-and-trimmed tags. -/
def mediaNormalizeTags (m : MediaDoc) : MediaDoc :=
  if m.tags.length > 0 then
    { m with tags := jsSetDedup (m.tags.map normalizeTag) } else m

/-- JS guard of the dimension checks: the value is truthy (present and
nonzero) and at most 0. -/
def truthyNonpos : Option Int → Bool
  | none => false
  | some w => w != 0 && decide (w ≤ 0)

/-- Second phase of the Media pre-save hook: for an image with metadata, the
width check fires when the width is truthy (nonzero) and at most 0, and
likewise for the height; otherwise the document passes through. -/
def mediaDimensionCheck (m : MediaDoc) : Except String MediaDoc :=
  if m.mediaType = "image" then
    match m.imageMetadata with
    | some meta =>
      if truthyNonpos meta.width then
        Except.error "Image width must be greater than 0"
      else if truthyNonpos meta.height then
        Except.error "Image height must be greater than 0"
      else Except.ok m
    | none => Except.ok m
  else Except.ok m

/-- The Media pre-save hook (src/models/Media.js lines 276-293): normalise
tags, then validate image dimensions. -/
def mediaPreSave (m : MediaDoc) : Except String MediaDoc :=
  mediaDimensionCheck (mediaNormalizeTags m)

/-- MediaSchema.methods.incrementViews, as the in-memory document update the
method performs before calling save. -/
def incrementViewsDoc (d : MediaDoc) : MediaDoc :=
  { d with analytics.views := d.analytics.views + 1 }

/-- MediaSchema.methods.incrementDownloads, in-memory update. -/
def incrementDownloadsDoc (d : MediaDoc) : MediaDoc :=
  { d with analytics.downloads := d.analytics.downloads + 1 }

/-- MediaSchema.methods.incrementShares, in-memory update. -/
def incrementSharesDoc (d : MediaDoc) : MediaDoc :=
  { d with analytics.shares := d.analytics.shares + 1 }

/-! ### Store-level concurrency model for the counter increments

The Media increment methods mutate an in-memory copy of the document and then
save the whole document: at the store level each invocation is a read of the
document followed by a write of the updated copy.  PageSchema.statics
incrementPageView instead issues findByIdAndUpdate with a $inc update, a
single atomic read-modify-write step executed inside the store. -/

/-- One client event of a read-then-save invocation: client 1 or 2 reads a
snapshot of the stored document, or writes back its updated snapshot. -/
inductive RmwEvent
  | read1
  | write1
  | read2
  | write2
deriving DecidableEq, Repr

/-- Store plus per-client snapshots during two concurrent read-then-save
invocations. -/
structure RmwState where
  store : MediaDoc
  snap1 : Option MediaDoc
  snap2 : Option MediaDoc
deriving DecidableEq, Repr

/-- Small-step semantics of the two concurrent invocations of a
read-modify-write operation op: a read takes a snapshot of the store, a write
stores op applied to the snapshot (a full-document save, overwriting the
store). -/
def rmwStep (op : MediaDoc → MediaDoc) (s : RmwState) : RmwEvent → RmwState
  | RmwEvent.read1 => { s with snap1 := some s.store }
  | RmwEvent.write1 =>
    match s.snap1 with
    | some d => { s with store := op d }
    | none => s
  | RmwEvent.read2 => { s with snap2 := some s.store }
  | RmwEvent.write2 =>
    match s.snap2 with
    | some d => { s with store := op d }
    | none => s

/-- Run a schedule of client events against the store. -/
def rmwRun (op : MediaDoc → MediaDoc) (s : RmwState) (sched : List RmwEvent) : RmwState :=
  sched.foldl (rmwStep op) s

/-- The interleaving in which both clients read before either writes; it is a
valid execution of two concurrent invocations (each client reads before it
writes). -/
def bothReadFirst : List RmwEvent :=
  [RmwEvent.read1, RmwEvent.read2, RmwEvent.write1, RmwEvent.write2]

/-- PageSchema.statics.incrementPageView issues a $inc of 1 on
analytics.pageViews inside the store: one atomic step on the stored counter. -/
def incrementPageView (storedPageViews : Nat) : Nat :=
  storedPageViews + 1

/-! ### User model (src/models/Media.js, userSchema part) -/

/-- A plain JS object as produced by toObject: an association list from keys
to field values (objects have at most one binding per key; lookup returns the
first). -/
abbrev JsObject := List (String × String)

/-- The JS delete operator on an object key. -/
def deleteKey (o : JsObject) (k : String) : JsObject :=
  o.filter (fun kv => kv.1 ≠ k)

/-- userSchema.methods.getPublicProfile: toObject followed by deletion of the
password, verificationToken, passwordResetToken and passwordResetExpires
keys. -/
def getPublicProfile (userObject : JsObject) : JsObject :=
  deleteKey (deleteKey (deleteKey (deleteKey userObject
    "password") "verificationToken") "passwordResetToken") "passwordResetExpires"

/-- The User document fields touched by generatePasswordResetToken. -/
structure UserDoc where
  passwordResetToken : Option String
  passwordResetExpires : Option Nat
deriving DecidableEq, Repr

/-- userSchema.methods.generatePasswordResetToken: the random token produced
by crypto.randomBytes and the SHA-256 hex digest function are passed in as
parameters; the method stores the digest of the token and an expiry 30
minutes (in milliseconds) after the call time, and returns the plaintext
token. -/
def generatePasswordResetToken (sha256hex : String → String) (resetToken : String)
    (now : Nat) (u : UserDoc) : String × UserDoc :=
  (resetToken,
   { u with
      passwordResetToken := some (sha256hex resetToken),
      passwordResetExpires := some (now + 30 * 60 * 1000) })

/-! ### Settings model (src/unnamed/part_001) -/

/-- Contact section of the Settings document. -/
structure SettingsContact where
  email : String
  phone : String
deriving DecidableEq, Repr

/-- Security section fields used by the Settings pre-save hook. -/
structure SettingsSecurity where
  passwordMinLength : Int
deriving DecidableEq, Repr

/-- Performance section fields used by the Settings pre-save hook. -/
structure SettingsPerformance where
  imageQuality : Int
deriving DecidableEq, Repr

/-- The Settings document fields its pre-save hook reads. -/
structure SettingsDoc where
  contact : SettingsContact
  security : SettingsSecurity
  performance : SettingsPerformance
deriving DecidableEq, Repr

/-- The SettingsSchema pre-save hook: require a contact channel, a password
length floor of 6, and an image quality between 1 and 100. -/
def settingsPreSave (s : SettingsDoc) : Except String Unit :=
  if s.contact.email = "" ∧ s.contact.phone = "" then
    Except.error "At least email or phone contact information must be provided"
  else if s.security.passwordMinLength < 6 then
    Except.error "Password minimum length must be at least 6 characters"
  else if s.performance.imageQuality < 1 ∨ s.performance.imageQuality > 100 then
    Except.error "Image quality must be between 1 and 100"
  else Except.ok ()

/-! ### Page model (src/models/Tag.js, PageSchema part) -/

/-- One entry of advancedFeatures.versionHistory. -/
structure VersionEntry where
  versionNumber : Nat
  title : String
  content : String
  author : Option Nat
  createdAt : Nat
deriving DecidableEq, Repr

/-- The advancedFeatures block fields used by the versioning hooks. -/
structure PageAdvanced where
  enableVersioning : Bool
  versionHistory : List VersionEntry
  currentVersion : Nat
deriving DecidableEq, Repr

/-- The embedded seo block fields filled in by the Page pre-save hook. -/
structure PageSeo where
  metaTitle : String
  metaDescription : String
deriving DecidableEq, Repr

/-- The fields of a Page document that its hooks and methods touch.  Author
identifiers are modelled as Nat; publishedAt is none while unset. -/
structure PageDoc where
  title : String
  content : String
  excerpt : String
  status : String
  publishedAt : Option Nat
  updatedAt : Nat
  author : Option Nat
  lastModifiedBy : Option Nat
  seo : PageSeo
  advancedFeatures : PageAdvanced
deriving DecidableEq, Repr

/-- The Page pre-save hook (src/models/Tag.js lines 553-573): refresh
updatedAt, stamp publishedAt when the page is published and publishedAt is
unset, and auto-fill the meta title and description (truncated to 60 and 160
units). -/
def pagePreSave (now : Nat) (p : PageDoc) : PageDoc :=
  let p := { p with updatedAt := now }
  let p := if p.status = "published" ∧ p.publishedAt = none then
    { p with publishedAt := some now } else p
  let p := if p.seo.metaTitle = "" ∧ p.title ≠ "" then
    { p with seo.metaTitle := p.title.take 60 } else p
  let p := if p.seo.metaDescription = "" ∧ p.excerpt ≠ "" then
    { p with seo.metaDescription := p.excerpt.take 160 } else p
  p

/-- The Page post-save hook (src/models/Tag.js lines 576-593): when
versioning is enabled and the content path was modified, append a snapshot
entry numbered with the current version counter and increment the counter.
The contentModified parameter is the isModified flag on the content path. -/
def pagePostSave (now : Nat) (contentModified : Bool) (p : PageDoc) : PageDoc :=
  if p.advancedFeatures.enableVersioning && contentModified then
    let entry : VersionEntry :=
      { versionNumber := p.advancedFeatures.currentVersion,
        title := p.title,
        content := p.content,
        author := p.lastModifiedBy.orElse (fun _ => p.author),
        createdAt := now }
    { p with
        advancedFeatures.versionHistory := p.advancedFeatures.versionHistory ++ [entry],
        advancedFeatures.currentVersion := p.advancedFeatures.currentVersion + 1 }
  else p

/-- Saving a Page document: the pre-save hook, the write, then the post-save
hook, at one save-time timestamp. -/
def savePage (contentModified : Bool) (now : Nat) (p : PageDoc) : PageDoc :=
  pagePostSave now contentModified (pagePreSave now p)

/-- PageSchema.methods.publish: force status to published, stamp publishedAt
with the current time, and save. -/
def publishPage (contentModified : Bool) (now : Nat) (p : PageDoc) : PageDoc :=
  savePage contentModified now { p with status := "published", publishedAt := some now }

/-- The version-history lookup performed by PageSchema.methods.revert. -/
def findVersion (p : PageDoc) (versionNumber : Nat) : Option VersionEntry :=
  p.advancedFeatures.versionHistory.find? (fun v => v.versionNumber == versionNumber)

/-- PageSchema.methods.revert: look up the snapshot with the requested
version number; when absent, throw Version not found before any mutation
(the document is returned unchanged alongside the error); when present,
overwrite content and title with the snapshot values and save.  The save
sees the content path as modified exactly when the snapshot content differs
from the live content. -/
def revertPage (versionNumber : Nat) (now : Nat) (p : PageDoc) :
    Except String Unit × PageDoc :=
  match findVersion p versionNumber with
  | none => (Except.error "Version not found", p)
  | some v =>
    (Except.ok (),
     savePage (decide (v.content ≠ p.content)) now
       { p with content := v.content, title := v.title })

/-! ### Concrete sample documents, used to evaluate the definitions -/

/-- A Page seo block with both derived fields unset. -/
def seoBlank : PageSeo := { metaTitle := "", metaDescription := "" }

/-- A draft page with versioning enabled and an empty history. -/
def pageDraft : PageDoc :=
  { title := "Home", content := "body", excerpt := "summary", status := "draft",
    publishedAt := none, updatedAt := 0, author := some 1, lastModifiedBy := none,
    seo := seoBlank,
    advancedFeatures := { enableVersioning := true, versionHistory := [], currentVersion := 1 } }

/-- A published page whose publication timestamp is still unset. -/
def pagePublishedUnset : PageDoc := { pageDraft with status := "published" }

/-- A published page whose publication timestamp is already 7. -/
def pagePublishedAt7 : PageDoc :=
  { pageDraft with status := "published", publishedAt := some 7 }

/-- A stored version-history snapshot numbered 1. -/
def entryOne : VersionEntry :=
  { versionNumber := 1, title := "Old title", content := "old body",
    author := some 1, createdAt := 5 }

/-- A page whose history holds exactly the snapshot numbered 1. -/
def pageWithHistory : PageDoc :=
  { pageDraft with
      advancedFeatures := { enableVersioning := true, versionHistory := [entryOne],
                            currentVersion := 2 } }

/-- A media document with zeroed counters and no tags. -/
def mediaBlank : MediaDoc :=
  { mediaType := "file", tags := [], imageMetadata := none,
    analytics := { views := 0, downloads := 0, shares := 0 } }

/-- A media document whose raw tags are the code-unit strings HI, hi-space
and hi: all three normalise to hi. -/
def mediaTagged : MediaDoc :=
  { mediaType := "image", tags := [[72, 73], [104, 105, 32], [104, 105]],
    imageMetadata := none,
    analytics := { views := 0, downloads := 0, shares := 0 } }

/-- The expected result of saving mediaTagged: a single tag hi. -/
def mediaTaggedSaved : MediaDoc := { mediaTagged with tags := [[104, 105]] }

/-- A settings document with an empty email and a nonempty phone. -/
def settingsPhoneOnly : SettingsDoc :=
  { contact := { email := "", phone := "5551234" },
    security := { passwordMinLength := 8 },
    performance := { imageQuality := 80 } }

/-- A settings document with both contact channels empty. -/
def settingsNoContact : SettingsDoc :=
  { settingsPhoneOnly with contact := { email := "", phone := "" } }

/-- A user object (toObject output) holding a secret alongside public
fields. -/
def userObjSample : JsObject :=
  [("username", "ali"), ("password", "secret"), ("email", "ali@example.com"),
   ("passwordResetToken", "tok")]

/-! ### Library lemmas about the JS Set spread -/

theorem mem_jsSetDedupAux {α : Type} [DecidableEq α] (l : List α) :
    ∀ (seen : List α) (x : α), x ∈ jsSetDedupAux seen l ↔ x ∈ l ∧ x ∉ seen := by
  induction l with
  | nil => simp [jsSetDedupAux]
  | cons t ts ih =>
    intro seen x
    rw [jsSetDedupAux]
    by_cases ht : t ∈ seen
    · rw [if_pos ht, ih]
      simp only [List.mem_cons]
      constructor
      · rintro ⟨hx, hns⟩
        exact ⟨Or.inr hx, hns⟩
      · rintro ⟨hx | hx, hns⟩
        · exact absurd (hx ▸ ht) hns
        · exact ⟨hx, hns⟩
    · rw [if_neg ht]
      simp only [List.mem_cons, ih]
      by_cases hxt : x = t
      · subst hxt; tauto
      · tauto

theorem jsSetDedupAux_nodup {α : Type} [DecidableEq α] (l : List α) :
    ∀ seen : List α, (jsSetDedupAux seen l).Nodup := by
  induction l with
  | nil => intro seen; simp [jsSetDedupAux]
  | cons t ts ih =>
    intro seen
    rw [jsSetDedupAux]
    by_cases ht : t ∈ seen
    · rw [if_pos ht]; exact ih seen
    · rw [if_neg ht]
      refine List.nodup_cons.mpr ⟨fun hmem => ?_, ih (t :: seen)⟩
      exact ((mem_jsSetDedupAux ts (t :: seen) t).mp hmem).2 (List.mem_cons_self t seen)

theorem idxOf_cons_self {α : Type} [DecidableEq α] (x : α) (l : List α) :
    idxOf x (x :: l) = 0 := by
  simp [idxOf]

theorem idxOf_cons_ne {α : Type} [DecidableEq α] (a x : α) (l : List α) (h : a ≠ x) :
    idxOf x (a :: l) = idxOf x l + 1 := by
  simp [idxOf, h]

theorem jsSetDedupAux_pairwise {α : Type} [DecidableEq α] (l : List α) :
    ∀ seen : List α,
      List.Pairwise (fun x y => idxOf x l < idxOf y l) (jsSetDedupAux seen l) := by
  induction l with
  | nil => intro seen; simp [jsSetDedupAux]
  | cons t ts ih =>
    intro seen
    rw [jsSetDedupAux]
    by_cases ht : t ∈ seen
    · rw [if_pos ht]
      refine (ih seen).imp_of_mem ?_
      intro a b ha hb hlt
      have ha' := (mem_jsSetDedupAux ts seen a).mp ha
      have hb' := (mem_jsSetDedupAux ts seen b).mp hb
      have hta : t ≠ a := fun e => ha'.2 (e ▸ ht)
      have htb : t ≠ b := fun e => hb'.2 (e ▸ ht)
      rw [idxOf_cons_ne _ _ _ hta, idxOf_cons_ne _ _ _ htb]
      omega
    · rw [if_neg ht]
      refine List.pairwise_cons.mpr ⟨?_, ?_⟩
      · intro y hy
        have hy' := (mem_jsSetDedupAux ts (t :: seen) y).mp hy
        have hty : t ≠ y := fun e => hy'.2 (by rw [← e]; exact List.mem_cons_self t seen)
        rw [idxOf_cons_self, idxOf_cons_ne _ _ _ hty]
        omega
      · refine (ih (t :: seen)).imp_of_mem ?_
        intro a b ha hb hlt
        have ha' := (mem_jsSetDedupAux ts (t :: seen) a).mp ha
        have hb' := (mem_jsSetDedupAux ts (t :: seen) b).mp hb
        have hta : t ≠ a := fun e => ha'.2 (by rw [← e]; exact List.mem_cons_self t seen)
        have htb : t ≠ b := fun e => hb'.2 (by rw [← e]; exact List.mem_cons_self t seen)
        rw [idxOf_cons_ne _ _ _ hta, idxOf_cons_ne _ _ _ htb]
        omega

theorem mem_jsSetDedup {α : Type} [DecidableEq α] (l : List α) (x : α) :
    x ∈ jsSetDedup l ↔ x ∈ l := by
  rw [jsSetDedup, mem_jsSetDedupAux]
  simp

theorem jsSetDedup_nodup {α : Type} [DecidableEq α] (l : List α) :
    (jsSetDedup l).Nodup := jsSetDedupAux_nodup l []

theorem jsSetDedup_pairwise {α : Type} [DecidableEq α] (l : List α) :
    List.Pairwise (fun x y => idxOf x l < idxOf y l) (jsSetDedup l) :=
  jsSetDedupAux_pairwise l []

/-! ### Lemmas about tag normalisation -/

theorem mem_of_mem_jsTrim {u : Nat} {s : JsStr} (h : u ∈ jsTrim s) : u ∈ s := by
  unfold jsTrim at h
  rw [List.mem_reverse] at h
  have h1 := (List.dropWhile_sublist _).mem h
  rw [List.mem_reverse] at h1
  exact (List.dropWhile_sublist _).mem h1

theorem toLower_unit_no_upper (v : Nat) :
    ¬(65 ≤ (if 65 ≤ v && v ≤ 90 then v + 32 else v) ∧
      (if 65 ≤ v && v ≤ 90 then v + 32 else v) ≤ 90) := by
  split
  next hcond => simp at hcond; omega
  next hcond => simp at hcond; omega

theorem normalizeTag_no_upper (t : JsStr) (u : Nat) (hu : u ∈ normalizeTag t) :
    ¬(65 ≤ u ∧ u ≤ 90) := by
  have h2 : u ∈ jsToLowerCase t := mem_of_mem_jsTrim hu
  unfold jsToLowerCase at h2
  rw [List.mem_map] at h2
  obtain ⟨v, _, rfl⟩ := h2
  exact toLower_unit_no_upper v

/-! ### Preservation lemmas for the Page save pipeline -/

theorem pagePreSave_advancedFeatures (now : Nat) (p : PageDoc) :
    (pagePreSave now p).advancedFeatures = p.advancedFeatures := by
  obtain ⟨ti, co, ex, st, pa, ua, au, lm, ⟨mt, md⟩, af⟩ := p
  simp only [pagePreSave]
  split_ifs <;> rfl

theorem pagePreSave_title (now : Nat) (p : PageDoc) :
    (pagePreSave now p).title = p.title := by
  obtain ⟨ti, co, ex, st, pa, ua, au, lm, ⟨mt, md⟩, af⟩ := p
  simp only [pagePreSave]
  split_ifs <;> rfl

theorem pagePreSave_content (now : Nat) (p : PageDoc) :
    (pagePreSave now p).content = p.content := by
  obtain ⟨ti, co, ex, st, pa, ua, au, lm, ⟨mt, md⟩, af⟩ := p
  simp only [pagePreSave]
  split_ifs <;> rfl

theorem pagePreSave_status (now : Nat) (p : PageDoc) :
    (pagePreSave now p).status = p.status := by
  obtain ⟨ti, co, ex, st, pa, ua, au, lm, ⟨mt, md⟩, af⟩ := p
  simp only [pagePreSave]
  split_ifs <;> rfl

theorem pagePreSave_publishedAt (now : Nat) (p : PageDoc) :
    (pagePreSave now p).publishedAt =
      if p.status = "published" ∧ p.publishedAt = none then some now
      else p.publishedAt := by
  obtain ⟨ti, co, ex, st, pa, ua, au, lm, ⟨mt, md⟩, af⟩ := p
  simp only [pagePreSave]
  split_ifs <;> rfl

theorem pagePostSave_publishedAt (now : Nat) (m : Bool) (p : PageDoc) :
    (pagePostSave now m p).publishedAt = p.publishedAt := by
  simp only [pagePostSave]
  split <;> rfl

theorem pagePostSave_status (now : Nat) (m : Bool) (p : PageDoc) :
    (pagePostSave now m p).status = p.status := by
  simp only [pagePostSave]
  split <;> rfl

theorem pagePostSave_title (now : Nat) (m : Bool) (p : PageDoc) :
    (pagePostSave now m p).title = p.title := by
  simp only [pagePostSave]
  split <;> rfl

theorem pagePostSave_content (now : Nat) (m : Bool) (p : PageDoc) :
    (pagePostSave now m p).content = p.content := by
  simp only [pagePostSave]
  split <;> rfl

theorem savePage_publishedAt (m : Bool) (now : Nat) (p : PageDoc) :
    (savePage m now p).publishedAt =
      if p.status = "published" ∧ p.publishedAt = none then some now
      else p.publishedAt := by
  rw [savePage, pagePostSave_publishedAt, pagePreSave_publishedAt]

theorem savePage_status (m : Bool) (now : Nat) (p : PageDoc) :
    (savePage m now p).status = p.status := by
  rw [savePage, pagePostSave_status, pagePreSave_status]

theorem savePage_title (m : Bool) (now : Nat) (p : PageDoc) :
    (savePage m now p).title = p.title := by
  rw [savePage, pagePostSave_title, pagePreSave_title]

theorem savePage_content (m : Bool) (now : Nat) (p : PageDoc) :
    (savePage m now p).content = p.content := by
  rw [savePage, pagePostSave_content, pagePreSave_content]

/-! ### Claim theorems -/

/-- C1: for a Page with versioning enabled, a save with modified content
appends exactly one version-history entry whose versionNumber is the
pre-save currentVersion and increments currentVersion by one; a save with
unmodified content appends nothing and leaves the counter unchanged. -/
theorem page_versioning_appends (p : PageDoc) (now : Nat)
    (h : p.advancedFeatures.enableVersioning = true) :
    (∃ e : VersionEntry,
        (savePage true now p).advancedFeatures.versionHistory
          = p.advancedFeatures.versionHistory ++ [e]
        ∧ e.versionNumber = p.advancedFeatures.currentVersion)
    ∧ (savePage true now p).advancedFeatures.currentVersion
        = p.advancedFeatures.currentVersion + 1
    ∧ (savePage false now p).advancedFeatures.versionHistory
        = p.advancedFeatures.versionHistory
    ∧ (savePage false now p).advancedFeatures.currentVersion
        = p.advancedFeatures.currentVersion := by
  have hAF := pagePreSave_advancedFeatures now p
  refine ⟨⟨⟨p.advancedFeatures.currentVersion, (pagePreSave now p).title,
      (pagePreSave now p).content,
      ((pagePreSave now p).lastModifiedBy.orElse fun _ => (pagePreSave now p).author), now⟩,
      ?_, rfl⟩, ?_, ?_, ?_⟩
  · simp [savePage, pagePostSave, hAF, h]
  · simp [savePage, pagePostSave, hAF, h]
  · simp [savePage, pagePostSave, hAF, h]
  · simp [savePage, pagePostSave, hAF, h]

/-- Witness for C1: saving the sample draft page with modified content at
time 3 appends the entry numbered 1 and moves the counter to 2; with
unmodified content it changes nothing. -/
theorem page_versioning_appends_witness :
    (∃ e : VersionEntry,
        (savePage true 3 pageDraft).advancedFeatures.versionHistory
          = pageDraft.advancedFeatures.versionHistory ++ [e]
        ∧ e.versionNumber = pageDraft.advancedFeatures.currentVersion)
    ∧ (savePage true 3 pageDraft).advancedFeatures.currentVersion
        = pageDraft.advancedFeatures.currentVersion + 1
    ∧ (savePage false 3 pageDraft).advancedFeatures.versionHistory
        = pageDraft.advancedFeatures.versionHistory
    ∧ (savePage false 3 pageDraft).advancedFeatures.currentVersion
        = pageDraft.advancedFeatures.currentVersion :=
  page_versioning_appends pageDraft 3 rfl

/-- C2: the Settings pre-save hook raises the contact error exactly when
both contact.email and contact.phone are empty; when at least one is
present the contact validation passes. -/
theorem settings_contact_required (s : SettingsDoc) :
    settingsPreSave s
        = Except.error "At least email or phone contact information must be provided"
      ↔ (s.contact.email = "" ∧ s.contact.phone = "") := by
  unfold settingsPreSave
  split_ifs with h1 h2 h3 <;> simp_all

/-- C4: a save of a Page whose status is published while publishedAt is
unset stamps publishedAt with the save time; a save of a Page whose
publishedAt is already set leaves it unchanged. -/
theorem page_publishedAt_set_once (p : PageDoc) (m : Bool) (now : Nat) :
    (p.status = "published" → p.publishedAt = none →
      (savePage m now p).publishedAt = some now)
    ∧ (∀ t, p.publishedAt = some t → (savePage m now p).publishedAt = some t) := by
  constructor
  · intro h1 h2
    rw [savePage_publishedAt, if_pos ⟨h1, h2⟩]
  · intro t ht
    rw [savePage_publishedAt, if_neg, ht]
    rintro ⟨-, h2⟩
    rw [ht] at h2
    exact Option.noConfusion h2

/-- Witness for C4: saving the published-but-unstamped sample page at time 9
stamps 9; saving the page already stamped 7 keeps 7. -/
theorem page_publishedAt_set_once_witness :
    (savePage true 9 pagePublishedUnset).publishedAt = some 9
    ∧ (savePage true 9 pagePublishedAt7).publishedAt = some 7 :=
  ⟨(page_publishedAt_set_once pagePublishedUnset true 9).1 rfl rfl,
   (page_publishedAt_set_once pagePublishedAt7 true 9).2 7 rfl⟩

/-- C5: revert with an absent version number returns the Version not found
error and the unchanged document; revert with a present version number
succeeds and replaces title and content with the snapshot values. -/
theorem revert_version (p : PageDoc) (n now : Nat) :
    (findVersion p n = none →
      revertPage n now p = (Except.error "Version not found", p))
    ∧ (∀ v, findVersion p n = some v →
        (revertPage n now p).1 = Except.ok ()
        ∧ (revertPage n now p).2.title = v.title
        ∧ (revertPage n now p).2.content = v.content) := by
  constructor
  · intro h
    rw [revertPage, h]
  · intro v hv
    rw [revertPage, hv]
    refine ⟨rfl, ?_, ?_⟩
    · show (savePage _ _ _).title = v.title
      rw [savePage_title]
    · show (savePage _ _ _).content = v.content
      rw [savePage_content]

/-- Witness for C5: on the sample page whose history holds only version 1,
reverting to the absent version 5 fails and leaves the document untouched,
and reverting to version 1 restores the snapshot title and content. -/
theorem revert_version_witness :
    revertPage 5 3 pageWithHistory = (Except.error "Version not found", pageWithHistory)
    ∧ ((revertPage 1 3 pageWithHistory).1 = Except.ok ()
      ∧ (revertPage 1 3 pageWithHistory).2.title = entryOne.title
      ∧ (revertPage 1 3 pageWithHistory).2.content = entryOne.content) :=
  ⟨(revert_version pageWithHistory 5 3).1 rfl,
   (revert_version pageWithHistory 1 3).2 entryOne rfl⟩

/-- C9: the publish method forces status to published and stamps publishedAt
with the call time unconditionally, overwriting an already-set publication
timestamp, whereas a plain save preserves an already-set publishedAt. -/
theorem publish_overwrites_publishedAt (p : PageDoc) (m : Bool) (now : Nat) :
    (publishPage m now p).status = "published"
    ∧ (publishPage m now p).publishedAt = some now
    ∧ (∀ t, p.publishedAt = some t → (savePage m now p).publishedAt = some t) := by
  refine ⟨?_, ?_, ?_⟩
  · rw [publishPage, savePage_status]
  · rw [publishPage, savePage_publishedAt,
      if_neg (fun hc => Option.noConfusion hc.2)]
  · intro t ht
    rw [savePage_publishedAt, if_neg, ht]
    rintro ⟨-, h2⟩
    rw [ht] at h2
    exact Option.noConfusion h2

/-- Witness for C9: publishing at time 9 the sample page already stamped 7
overwrites the stamp with 9, while a plain save at time 9 keeps 7. -/
theorem publish_overwrites_publishedAt_witness :
    (publishPage false 9 pagePublishedAt7).status = "published"
    ∧ (publishPage false 9 pagePublishedAt7).publishedAt = some 9
    ∧ (savePage false 9 pagePublishedAt7).publishedAt = some 7 :=
  ⟨(publish_overwrites_publishedAt pagePublishedAt7 false 9).1,
   (publish_overwrites_publishedAt pagePublishedAt7 false 9).2.1,
   (publish_overwrites_publishedAt pagePublishedAt7 false 9).2.2 7 rfl⟩

/-! ### Lemmas about the Media pre-save hook -/

theorem mediaNormalizeTags_mediaType (m : MediaDoc) :
    (mediaNormalizeTags m).mediaType = m.mediaType := by
  rw [mediaNormalizeTags]
  split <;> rfl

theorem mediaNormalizeTags_imageMetadata (m : MediaDoc) :
    (mediaNormalizeTags m).imageMetadata = m.imageMetadata := by
  rw [mediaNormalizeTags]
  split <;> rfl

theorem mediaNormalizeTags_tags (m : MediaDoc) :
    (mediaNormalizeTags m).tags = jsSetDedup (m.tags.map normalizeTag) := by
  rw [mediaNormalizeTags]
  split
  · rfl
  · next hlen =>
    have h0 : m.tags = [] :=
      List.length_eq_zero.mp (Nat.le_zero.mp (Nat.not_lt.mp hlen))
    rw [h0]
    rfl

theorem mediaDimensionCheck_ok (m m' : MediaDoc)
    (h : mediaDimensionCheck m = Except.ok m') : m' = m := by
  rw [mediaDimensionCheck] at h
  split at h
  · split at h
    · split_ifs at h
      exact (Except.ok.inj h).symm
    · exact (Except.ok.inj h).symm
  · exact (Except.ok.inj h).symm

theorem mediaPreSave_ok_tags (m m' : MediaDoc) (h : mediaPreSave m = Except.ok m') :
    m'.tags = jsSetDedup (m.tags.map normalizeTag) := by
  rw [mediaPreSave] at h
  rw [mediaDimensionCheck_ok _ _ h, mediaNormalizeTags_tags]

/-- The width and height guard of the Media pre-save hook fires exactly on
strictly negative values: a truthy number that is at most 0. -/
theorem truthyNonpos_iff (o : Option Int) :
    truthyNonpos o = true ↔ ∃ w, o = some w ∧ w < 0 := by
  cases o with
  | none => simp [truthyNonpos]
  | some w =>
    simp only [truthyNonpos, Bool.and_eq_true, bne_iff_ne, ne_eq, decide_eq_true_eq,
      Option.some.injEq]
    constructor
    · intro hw
      exact ⟨w, rfl, by omega⟩
    · rintro ⟨w', hw', hneg⟩
      subst hw'
      omega

/-- The dimension-check phase errors exactly on an image whose metadata
holds a strictly negative width or height. -/
theorem mediaDimensionCheck_error_iff (n : MediaDoc) :
    (∃ e, mediaDimensionCheck n = Except.error e) ↔
      (n.mediaType = "image" ∧ ∃ meta, n.imageMetadata = some meta ∧
        ((∃ w, meta.width = some w ∧ w < 0)
          ∨ (∃ hgt, meta.height = some hgt ∧ hgt < 0))) := by
  obtain ⟨mt, tags, im, an⟩ := n
  rw [mediaDimensionCheck]
  dsimp only
  by_cases himg : mt = "image"
  · rw [if_pos himg]
    cases im with
    | none =>
      simp
    | some meta =>
      dsimp only
      by_cases hw : truthyNonpos meta.width = true
      · rw [if_pos hw]
        rw [truthyNonpos_iff] at hw
        constructor
        · intro _
          exact ⟨himg, meta, rfl, Or.inl hw⟩
        · intro _
          exact ⟨_, rfl⟩
      · rw [if_neg hw]
        by_cases hh : truthyNonpos meta.height = true
        · rw [if_pos hh]
          rw [truthyNonpos_iff] at hh
          constructor
          · intro _
            exact ⟨himg, meta, rfl, Or.inr hh⟩
          · intro _
            exact ⟨_, rfl⟩
        · rw [if_neg hh]
          constructor
          · rintro ⟨e, he⟩
            exact Except.noConfusion he
          · rintro ⟨-, meta', hm, hbad⟩
            obtain rfl : meta = meta' := Option.some.inj hm
            rcases hbad with ⟨w, hww, hwneg⟩ | ⟨hgt, hhh, hhneg⟩
            · exact absurd ((truthyNonpos_iff meta.width).mpr ⟨w, hww, hwneg⟩) hw
            · exact absurd ((truthyNonpos_iff meta.height).mpr ⟨hgt, hhh, hhneg⟩) hh
  · rw [if_neg himg]
    constructor
    · rintro ⟨e, he⟩
      exact Except.noConfusion he
    · rintro ⟨hmt', -⟩
      exact absurd hmt' himg

/-- C6: after a successful Media save the tags array holds only entries
without uppercase ASCII letters, has no duplicates, consists exactly of the
normalised pre-save tags, and lists them in the order of their first
occurrence in the normalised pre-save sequence. -/
theorem media_tags_normalized (m m' : MediaDoc) (h : mediaPreSave m = Except.ok m') :
    (∀ t ∈ m'.tags, ∀ u ∈ t, ¬(65 ≤ u ∧ u ≤ 90))
    ∧ m'.tags.Nodup
    ∧ (∀ x, x ∈ m'.tags ↔ x ∈ m.tags.map normalizeTag)
    ∧ List.Pairwise
        (fun x y => idxOf x (m.tags.map normalizeTag)
          < idxOf y (m.tags.map normalizeTag)) m'.tags := by
  have htags := mediaPreSave_ok_tags m m' h
  refine ⟨?_, ?_, ?_, ?_⟩
  · intro t ht u hu
    rw [htags, mem_jsSetDedup, List.mem_map] at ht
    obtain ⟨t0, -, rfl⟩ := ht
    exact normalizeTag_no_upper t0 u hu
  · rw [htags]
    exact jsSetDedup_nodup _
  · intro x
    rw [htags, mem_jsSetDedup]
  · rw [htags]
    exact jsSetDedup_pairwise _

/-- Witness for C6: the sample media with raw tags HI, hi-space and hi saves
to the single tag hi, which satisfies all four normalisation properties. -/
theorem media_tags_normalized_witness :
    (∀ t ∈ mediaTaggedSaved.tags, ∀ u ∈ t, ¬(65 ≤ u ∧ u ≤ 90))
    ∧ mediaTaggedSaved.tags.Nodup
    ∧ (∀ x, x ∈ mediaTaggedSaved.tags ↔ x ∈ mediaTagged.tags.map normalizeTag)
    ∧ List.Pairwise
        (fun x y => idxOf x (mediaTagged.tags.map normalizeTag)
          < idxOf y (mediaTagged.tags.map normalizeTag)) mediaTaggedSaved.tags :=
  media_tags_normalized mediaTagged mediaTaggedSaved rfl

/-- C10: the Media pre-save hook rejects a save exactly when the document is
an image with metadata whose width or height is strictly negative; in
particular a width or height equal to 0 passes the check even though the
error message demands dimensions greater than 0. -/
theorem media_dimension_check_negative_only (m : MediaDoc) :
    (∃ e, mediaPreSave m = Except.error e) ↔
      (m.mediaType = "image" ∧ ∃ meta, m.imageMetadata = some meta ∧
        ((∃ w, meta.width = some w ∧ w < 0)
          ∨ (∃ hgt, meta.height = some hgt ∧ hgt < 0))) := by
  rw [mediaPreSave, mediaDimensionCheck_error_iff,
    mediaNormalizeTags_mediaType, mediaNormalizeTags_imageMetadata]

/-- C3 counterexample: the claim fails for the Media counters.  Two
concurrent invocations of incrementViews are read-modify-write saves of the
whole document; in the interleaving where both clients read before either
writes, two increments on a record with 0 views end at 1 view, not 2 - an
update is lost. -/
theorem media_increment_lost_update :
    (rmwRun incrementViewsDoc ⟨mediaBlank, none, none⟩ bothReadFirst).store.analytics.views = 1
    ∧ (rmwRun incrementViewsDoc ⟨mediaBlank, none, none⟩ bothReadFirst).store.analytics.views
        ≠ mediaBlank.analytics.views + 2 := by
  constructor
  · rfl
  · decide

/-- C3 amended: only the Page view counter is incremented atomically at the
store level (findByIdAndUpdate with a $inc), so two invocations always add
2; the Media views, downloads and shares counters are incremented in memory
and saved as whole documents, and the interleaving in which both clients
read before either writes loses one of the two updates. -/
theorem counter_increment_atomicity (s : Nat) (d : MediaDoc) :
    incrementPageView (incrementPageView s) = s + 2
    ∧ (rmwRun incrementViewsDoc ⟨d, none, none⟩ bothReadFirst).store.analytics.views
        = d.analytics.views + 1
    ∧ (rmwRun incrementDownloadsDoc ⟨d, none, none⟩ bothReadFirst).store.analytics.downloads
        = d.analytics.downloads + 1
    ∧ (rmwRun incrementSharesDoc ⟨d, none, none⟩ bothReadFirst).store.analytics.shares
        = d.analytics.shares + 1 :=
  ⟨rfl, rfl, rfl, rfl⟩

/-! ### Lemmas about the public profile projection -/

theorem lookup_deleteKey (o : JsObject) (k ku : String) (h : k ≠ ku) :
    (deleteKey o ku).lookup k = o.lookup k := by
  induction o with
  | nil => rfl
  | cons kv o ih =>
    obtain ⟨a, b⟩ := kv
    by_cases ha : a = ku
    · have hd : deleteKey ((a, b) :: o) ku = deleteKey o ku := by
        simp [deleteKey, ha]
      have hne : (k == a) = false :=
        beq_eq_false_iff_ne.mpr (fun e => h (e.trans ha))
      rw [hd, ih]
      simp [List.lookup, hne]
    · have hd : deleteKey ((a, b) :: o) ku = (a, b) :: deleteKey o ku := by
        simp [deleteKey, ha]
      rw [hd]
      by_cases hak : k = a
      · simp [List.lookup, hak]
      · have hne : (k == a) = false := beq_eq_false_iff_ne.mpr hak
        simp [List.lookup, hne, ih]

/-- C7: the public profile projection contains none of the four secret keys,
and looking up any other key gives the same value as in the full record. -/
theorem public_profile_strips_secrets (o : JsObject) :
    (∀ kv ∈ getPublicProfile o,
        kv.1 ≠ "password" ∧ kv.1 ≠ "verificationToken"
        ∧ kv.1 ≠ "passwordResetToken" ∧ kv.1 ≠ "passwordResetExpires")
    ∧ (∀ k, k ≠ "password" → k ≠ "verificationToken" → k ≠ "passwordResetToken" →
        k ≠ "passwordResetExpires" →
        (getPublicProfile o).lookup k = o.lookup k) := by
  constructor
  · intro kv hkv
    unfold getPublicProfile deleteKey at hkv
    simp only [List.mem_filter, decide_eq_true_eq] at hkv
    tauto
  · intro k h1 h2 h3 h4
    unfold getPublicProfile
    rw [lookup_deleteKey _ _ _ h4, lookup_deleteKey _ _ _ h3,
      lookup_deleteKey _ _ _ h2, lookup_deleteKey _ _ _ h1]

/-- Witness for C7: on the sample user object the projection is free of all
four secret keys, and the email field survives unchanged. -/
theorem public_profile_strips_secrets_witness :
    (∀ kv ∈ getPublicProfile userObjSample,
        kv.1 ≠ "password" ∧ kv.1 ≠ "verificationToken"
        ∧ kv.1 ≠ "passwordResetToken" ∧ kv.1 ≠ "passwordResetExpires")
    ∧ (getPublicProfile userObjSample).lookup "email" = userObjSample.lookup "email" :=
  ⟨(public_profile_strips_secrets userObjSample).1,
   (public_profile_strips_secrets userObjSample).2 "email"
     (by decide) (by decide) (by decide) (by decide)⟩

/-- C8: generatePasswordResetToken returns the plaintext token, stores only
its SHA-256 digest (not the plaintext, whenever the digest differs from the
token), and sets the expiry to exactly 30 minutes after the call time. -/
theorem password_reset_token_hashed (sha256hex : String → String) (resetToken : String)
    (now : Nat) (u : UserDoc) (hne : sha256hex resetToken ≠ resetToken) :
    (generatePasswordResetToken sha256hex resetToken now u).1 = resetToken
    ∧ (generatePasswordResetToken sha256hex resetToken now u).2.passwordResetToken
        = some (sha256hex resetToken)
    ∧ (generatePasswordResetToken sha256hex resetToken now u).2.passwordResetToken
        ≠ some resetToken
    ∧ (generatePasswordResetToken sha256hex resetToken now u).2.passwordResetExpires
        = some (now + 30 * 60 * 1000) := by
  refine ⟨rfl, rfl, ?_, rfl⟩
  intro hc
  exact hne (Option.some.inj hc)

/-- Witness for C8: with a stub digest function that prepends a marker, the
method returns the plaintext, stores the digest and sets expiry to 30
minutes in milliseconds. -/
theorem password_reset_token_hashed_witness :
    (generatePasswordResetToken (fun s => "sha256:" ++ s) "tok" 0 ⟨none, none⟩).1 = "tok"
    ∧ (generatePasswordResetToken (fun s => "sha256:" ++ s) "tok" 0
        ⟨none, none⟩).2.passwordResetToken = some ((fun s => "sha256:" ++ s) "tok")
    ∧ (generatePasswordResetToken (fun s => "sha256:" ++ s) "tok" 0
        ⟨none, none⟩).2.passwordResetToken ≠ some "tok"
    ∧ (generatePasswordResetToken (fun s => "sha256:" ++ s) "tok" 0
        ⟨none, none⟩).2.passwordResetExpires = some (0 + 30 * 60 * 1000) :=
  password_reset_token_hashed (fun s => "sha256:" ++ s) "tok" 0 ⟨none, none⟩ (by decide)

end CMS
